import Mathlib

/-!
Verification of StockAnalyzerPro (src/data_provider.py and
src/utils/models/deepseek.py) against its natural-language specification.

Shallow embedding conventions:
- Python exceptions are modelled with `Except`: a function that may raise
  returns `Except ε α`, and an external operation that may raise is an
  oracle of type `... → Except ε α`.
- Wall-clock time (`time.time()`) is an explicit `Int` parameter; the
  `time.sleep` backoff delays and the millisecond timing statistics have no
  observable effect on control flow and are not modelled.
- pandas DataFrames are modelled as lists of rows with the columns the code
  actually reads; `pd.to_numeric(errors="coerce")` output is an
  `Option Int` (`none` = NaN from a missing or non-numeric cell).
- Python string truthiness (`if s:`) is modelled as `s ≠ ""`.
-/

/-! ## Retry layer: AkshareProvider._call_with_retry (src/data_provider.py lines 80-99) -/

/-- Observability record for one failed attempt: the code prints
`"... 失败，重试 {attempt + 1}/{max_retries} ..."` together with the error,
so a report carries the 1-based attempt index and the error cause. -/
structure RetryReport (ε : Type) where
  attempt : Nat
  cause : ε
deriving DecidableEq, Repr

/-- Result of `_call_with_retry`: the returned value or the final
`RuntimeError` (which wraps `last_err`, an `Option ε` since `last_err`
starts as `None`), the number of invocations of `fn`, and the reports
printed for failed attempts. -/
structure RetryOutcome (α ε : Type) where
  result : Except (Option ε) α
  attempts : Nat
  reports : List (RetryReport ε)
deriving Repr

/-- Loop body of `_call_with_retry`: `attempt` is the current value of the
`for attempt in range(self.max_retries)` loop variable, `remaining` the
number of iterations left, `lastErr` the current `last_err`.  The
`_sleep_with_backoff` call between attempts only delays and is dropped. -/
def callWithRetryAux (fn : Nat → Except ε α) (verbose : Bool) :
    Nat → Nat → Option ε → RetryOutcome α ε
  | _, 0, lastErr => ⟨Except.error lastErr, 0, []⟩
  | attempt, remaining + 1, _ =>
    match fn attempt with
    | Except.ok v => ⟨Except.ok v, 1, []⟩
    | Except.error e =>
      let rest := callWithRetryAux fn verbose (attempt + 1) remaining (some e)
      ⟨rest.result, rest.attempts + 1,
        (if verbose then [⟨attempt + 1, e⟩] else []) ++ rest.reports⟩

/-- AkshareProvider._call_with_retry: run `fn` up to `maxRetries` times;
return the first success, else raise a `RuntimeError` wrapping the last
error.  `fn` takes the attempt index so that distinct invocations can be
told apart. -/
def callWithRetry (fn : Nat → Except ε α) (maxRetries : Nat) (verbose : Bool) :
    RetryOutcome α ε :=
  callWithRetryAux fn verbose 0 maxRetries none

/-! ## Snapshot cache: AkshareProvider._get_spot_df and clear_cache
(src/data_provider.py lines 104-120 and 247-249) -/

/-- Fields `_snapshot_cache` / `_snapshot_cache_ts` of AkshareProvider.
`δ` stands for the DataFrame type; the timestamp is an `Int` model of
`time.time()`. -/
structure CacheState (δ : Type) where
  snapshotCache : Option δ
  snapshotCacheTs : Int
deriving DecidableEq, Repr

/-- AkshareProvider._get_spot_df.  `now` is the value of `time.time()` at
entry, `fetched` the DataFrame the (retry-wrapped) upstream fetch would
return on this call.  Result: the returned DataFrame, the new cache state,
and the number of upstream fetches performed (0 or 1).  The `df.copy()` is
the identity in our value semantics, and a fetch failure (exhausted
retries) simply propagates in the code, so only successful fetches are
modelled here. -/
def getSpotDf (st : CacheState δ) (now ttl : Int) (fetched : δ) :
    δ × CacheState δ × Nat :=
  match st.snapshotCache with
  | some df =>
    if now - st.snapshotCacheTs ≤ ttl then (df, st, 0)
    else (fetched, ⟨some fetched, now⟩, 1)
  | none => (fetched, ⟨some fetched, now⟩, 1)

/-- AkshareProvider.clear_cache: reset the slot to `None` and the timestamp
to 0. -/
def clearCache {δ : Type} : CacheState δ :=
  ⟨none, 0⟩

/-! ## Concurrent access to the snapshot cache (C6)

AkshareProvider holds the cache in two plain instance attributes and
`_get_spot_df` takes no lock, so a call interleaves with others at the
granularity of its three phases: read the clock and check the cache,
perform the upstream fetch, store the result.  We model two callers sharing
one cache slot; a schedule says which caller steps next. -/

/-- Phase of one caller inside `_get_spot_df`: `ready` = about to read
`now = time.time()` and test the cache; `needFetch now` = observed a miss
at time `now` and is about to fetch and store; `finished` = returned. -/
inductive GetPhase where
  | ready : GetPhase
  | needFetch : Int → GetPhase
  | finished : GetPhase
deriving DecidableEq, Repr

/-- Shared state seen by the two callers: the cache slot, the number of
upstream fetches issued so far, and a logical clock that advances one tick
per step. -/
structure ConcState where
  cache : CacheState Nat
  fetches : Nat
  clock : Int
deriving DecidableEq, Repr

/-- One step of one caller of `_get_spot_df` (cache test from line 108,
fetch-and-store from lines 115-119). -/
def phaseStep (ttl : Int) (fetchVal : Nat) (s : ConcState) (p : GetPhase) :
    ConcState × GetPhase :=
  match p with
  | GetPhase.ready =>
    let now := s.clock
    match s.cache.snapshotCache with
    | some _ =>
      if now - s.cache.snapshotCacheTs ≤ ttl then
        (⟨s.cache, s.fetches, s.clock + 1⟩, GetPhase.finished)
      else
        (⟨s.cache, s.fetches, s.clock + 1⟩, GetPhase.needFetch now)
    | none => (⟨s.cache, s.fetches, s.clock + 1⟩, GetPhase.needFetch now)
  | GetPhase.needFetch now =>
    (⟨⟨some fetchVal, now⟩, s.fetches + 1, s.clock + 1⟩, GetPhase.finished)
  | GetPhase.finished => (s, GetPhase.finished)

/-- Run a schedule over two callers A and B: `false` steps A, `true` steps
B. -/
def runSched (ttl : Int) (fetchVal : Nat) :
    List Bool → ConcState → GetPhase → GetPhase → ConcState × GetPhase × GetPhase
  | [], s, pA, pB => (s, pA, pB)
  | b :: rest, s, pA, pB =>
    if b then
      runSched ttl fetchVal rest (phaseStep ttl fetchVal s pB).1 pA
        (phaseStep ttl fetchVal s pB).2
    else
      runSched ttl fetchVal rest (phaseStep ttl fetchVal s pA).1
        (phaseStep ttl fetchVal s pA).2 pB

/-- Number of fetches a caller in phase `p` can still issue (at most one
per `_get_spot_df` call). -/
def pendingFetches : GetPhase → Nat
  | GetPhase.finished => 0
  | _ => 1

/-! ## Symbol resolution: AkshareProvider.resolve_symbol
(src/data_provider.py lines 61-77 and 125-172) -/

/-- Boolean test that `pat` is a prefix of the first list. -/
def startsWithChars : List Char → List Char → Bool
  | _, [] => true
  | [], _ :: _ => false
  | h :: t, p :: ps => h == p && startsWithChars t ps

/-- Boolean substring containment on character lists. -/
def containsChars (pat : List Char) : List Char → Bool
  | [] => startsWithChars [] pat
  | c :: t => startsWithChars (c :: t) pat || containsChars pat t

/-- Python str.strip(): drop whitespace from both ends. -/
def pyStrip (s : String) : String :=
  String.mk (((s.data.dropWhile Char.isWhitespace).reverse.dropWhile
    Char.isWhitespace).reverse)

/-- AkshareProvider._is_code: strip, then `re.fullmatch(r"\d{6}", s)`.
Digits are modelled as ASCII digits (A-share codes are ASCII). -/
def isCodeQuery (s : String) : Bool :=
  let t := pyStrip s
  t.length == 6 && t.data.all Char.isDigit

/-- Model of the pandas series test
`spot[col_name].astype(str).str.contains(q, na=False)` on one cell.
pandas treats `q` as a regular expression with the default `case=True`;
for a query without regex metacharacters this is exactly case-sensitive
literal substring containment, which is what we model. -/
def pdStrContains (hay pat : String) : Bool :=
  containsChars pat.data hay.data

/-- Row of the whole-market snapshot with the three columns
`resolve_symbol` reads: `代码` (code, compared via `astype(str)`), `名称`
(display name), `成交额` (traded value).  `amount` holds the value of
`pd.to_numeric(cell, errors="coerce")`: `none` is NaN (missing or
non-numeric cell), numeric values are modelled as integers. -/
structure SpotRow where
  code : String
  name : String
  amount : Option Int
deriving DecidableEq, Repr, Inhabited

/-- Snapshot DataFrame: its rows, and whether `_pick_col` found a traded
value column (`col_amount` not `None`).  The code/name columns must exist
(otherwise the code raises before filtering), so they are plain fields of
`SpotRow`. -/
structure SpotDf where
  rows : List SpotRow
  hasAmountCol : Bool
deriving DecidableEq, Repr

/-- Errors raised by resolve_symbol: `ValueError` for an empty query,
`ValueError` for an empty filter result, and the `IndexError` that
`hit2.iloc[0]` raises when `topn = 0` truncates a multi-candidate hit to
nothing. -/
inductive ResolveError where
  | emptyQuery : ResolveError
  | noMatch : ResolveError
  | indexError : ResolveError
deriving DecidableEq, Repr

/-- Return value of resolve_symbol: `(code, name, hit_df)`. -/
structure Resolved where
  code : String
  name : String
  hits : List SpotRow
deriving DecidableEq, Repr

/-- Filter step of resolve_symbol (lines 147-150): exact code equality for
a 6-digit query, name containment otherwise.  `q` is the stripped query. -/
def hitRows (spot : SpotDf) (q : String) : List SpotRow :=
  if isCodeQuery q then spot.rows.filter (fun r => r.code == q)
  else spot.rows.filter (fun r => pdStrContains r.name q)

/-- Descending priority on coerced traded values: NaN (`none`) sorts after
every number, as `sort_values(ascending=False)` puts NaN last. -/
def amountGE : Option Int → Option Int → Bool
  | none, none => true
  | none, some _ => false
  | some _, none => true
  | some a, some b => decide (b ≤ a)

/-- Ranking relation on rows induced by `amountGE`. -/
def rankGE (a b : SpotRow) : Prop :=
  amountGE a.amount b.amount = true

instance : DecidableRel rankGE :=
  fun a b => inferInstanceAs (Decidable (amountGE a.amount b.amount = true))

instance : IsTotal SpotRow rankGE where
  total a b := by
    unfold rankGE
    cases ha : a.amount <;> cases hb : b.amount <;> simp [amountGE] <;> omega

instance : IsTrans SpotRow rankGE where
  trans a b c := by
    unfold rankGE
    cases ha : a.amount <;> cases hb : b.amount <;> cases hc : c.amount <;>
      simp [amountGE] <;> omega

/-- Model of `hit2.sort_values(col_amount, ascending=False)`: a sort by the
(total, transitive) descending-amount relation.  pandas' default quicksort
leaves the order of ties unspecified; insertion sort fixes one concrete
order satisfying the same comparator. -/
def sortByAmountDesc (l : List SpotRow) : List SpotRow :=
  List.insertionSort rankGE l

/-- AkshareProvider.resolve_symbol.  Mirrors lines 131-172: strip the
query, raise on empty, filter, raise on no match, then either rank / take
the top `topn` (sorting only when the snapshot has a traded-value column)
or return the single hit row. -/
def resolveSymbol (spot : SpotDf) (query : String) (topn : Nat) :
    Except ResolveError Resolved :=
  let q := pyStrip query
  if q = "" then Except.error ResolveError.emptyQuery
  else
    let hit := hitRows spot q
    if hit.isEmpty then Except.error ResolveError.noMatch
    else if 1 < hit.length then
      let hit2 := if spot.hasAmountCol then sortByAmountDesc hit else hit
      let hit3 := hit2.take topn
      match hit3 with
      | [] => Except.error ResolveError.indexError
      | row0 :: _ => Except.ok ⟨row0.code, row0.name, hit3⟩
    else
      match hit with
      | [] => Except.error ResolveError.indexError
      | row :: _ => Except.ok ⟨row.code, row.name, hit.take 1⟩

/-- Top candidates returned for a multi-row hit: the hit rows sorted by
descending traded value, truncated to `topn`. -/
def rankedHits (spot : SpotDf) (query : String) (topn : Nat) : List SpotRow :=
  (sortByAmountDesc (hitRows spot (pyStrip query))).take topn

/-! ## Conversation orchestrator: utils/models/deepseek.py

The model endpoint and the MCP tool gateway are external collaborators,
modelled as oracles: `model : List Msg → List Chunk` gives the chunk stream
the endpoint returns for a message history (deterministic in the history,
which loses no generality for any single run), and
`toolExec : String → String → Except String String` is `mcp.tool_call`
(tool name, raw argument string → JSON result string or raised error).
The `json.loads` of the argument string is absorbed into the raw string:
argument payloads are passed through opaquely.  Token usage and wall-clock
timing fields of `stats` have no effect on control flow and are omitted;
`stats` keeps the two counters the claims are about. -/

/-- Accumulated entry of `tool_calls_dict` (and, once complete, an element
of `tool_calls_list`): `id`, `function.name`, `function.arguments`. -/
structure ToolCallItem where
  callId : String
  fnName : String
  fnArgs : String
deriving DecidableEq, Repr, Inhabited

/-- One element of `delta.tool_calls` in a stream chunk; `""` models a
missing / falsy fragment. -/
structure ToolCallDelta where
  index : Nat
  deltaId : String
  deltaName : String
  deltaArgs : String
deriving DecidableEq, Repr

/-- One stream chunk's delta: `reasoning_content`, `content` (with `""`
for absent/falsy), and the tool-call fragments. -/
structure Chunk where
  reasoningContent : String
  content : String
  toolCalls : List ToolCallDelta
deriving DecidableEq, Repr

/-- Stats counters kept by _chat_stream that the claims concern. -/
structure Stats where
  toolCalls : Nat
  toolResults : Nat
deriving DecidableEq, Repr

/-- SSE events emitted by _chat_stream, as typed values (the
`event: ...\ndata: ...` serialization is presentation only).
`toolCallEv` carries id, name, arguments, 1-based index and round total;
`toolResultEv` carries tool_call_id, name, the success flag, and the
result (on success) or `str(e)` (on failure). -/
inductive Event where
  | start : String → String → Event
  | reasoning : String → Event
  | message : String → Event
  | toolCallEv : String → String → String → Nat → Nat → Event
  | toolResultEv : String → String → Bool → String → Event
  | errorEv : String → Event
  | endEv : String → Stats → Event
deriving DecidableEq, Repr

/-- Content of a `role: tool` message: `json.dumps(mcp_result)` on
success, `json.dumps(dict(error=str(e)))` on failure. -/
inductive ToolMsgContent where
  | result : String → ToolMsgContent
  | errorWrap : String → ToolMsgContent
deriving DecidableEq, Repr

/-- Conversation messages.  `assistant content toolCalls reasoning`
mirrors the assistant dict built at lines 130-137 (`content` is `None`
when the joined content is empty; `reasoning` is `some _` exactly when
thinking mode adds a `reasoning_content` key). -/
inductive Msg where
  | system : String → Msg
  | user : String → Msg
  | assistant : Option String → List ToolCallItem → Option String → Msg
  | tool : String → ToolMsgContent → Msg
deriving DecidableEq, Repr

/-- Membership test of `idx in tool_calls_dict`. -/
def dictContains (d : List (Nat × ToolCallItem)) (i : Nat) : Bool :=
  d.any (fun kv => kv.1 == i)

/-- Update the entry at key `i` (which must exist) in place. -/
def dictUpdate (d : List (Nat × ToolCallItem)) (i : Nat)
    (f : ToolCallItem → ToolCallItem) : List (Nat × ToolCallItem) :=
  d.map (fun kv => if kv.1 == i then (kv.1, f kv.2) else kv)

/-- Merge one tool-call delta into an accumulated entry (lines 88-93):
truthy `id`/`name` fragments overwrite, truthy `arguments` fragments are
concatenated. -/
def applyDelta (td : ToolCallDelta) (acc : ToolCallItem) : ToolCallItem :=
  ⟨if td.deltaId == "" then acc.callId else td.deltaId,
   if td.deltaName == "" then acc.fnName else td.deltaName,
   if td.deltaArgs == "" then acc.fnArgs else acc.fnArgs ++ td.deltaArgs⟩

/-- Process one `tc_delta` (lines 79-93): create the empty entry on first
sight of the index (Python dict preserves insertion order), then merge. -/
def processToolDelta (d : List (Nat × ToolCallItem)) (td : ToolCallDelta) :
    List (Nat × ToolCallItem) :=
  let d1 := if dictContains d td.index then d else d ++ [(td.index, ⟨"", "", ""⟩)]
  dictUpdate d1 td.index (applyDelta td)

/-- Per-round accumulators of the chunk loop: content_chunks,
reasoning_chunks, tool_calls_dict. -/
structure StreamAcc where
  contentChunks : List String
  reasoningChunks : List String
  toolDict : List (Nat × ToolCallItem)
deriving DecidableEq, Repr

/-- Events yielded while consuming one chunk (lines 67-75): a reasoning
event for a truthy reasoning delta, then a message event for a truthy
content delta. -/
def chunkEvents (ch : Chunk) : List Event :=
  (if ch.reasoningContent == "" then [] else [Event.reasoning ch.reasoningContent]) ++
    (if ch.content == "" then [] else [Event.message ch.content])

/-- State update while consuming one chunk (lines 67-93). -/
def processChunk (acc : StreamAcc) (ch : Chunk) : StreamAcc :=
  ⟨acc.contentChunks ++ (if ch.content == "" then [] else [ch.content]),
   acc.reasoningChunks ++
     (if ch.reasoningContent == "" then [] else [ch.reasoningContent]),
   ch.toolCalls.foldl processToolDelta acc.toolDict⟩

/-- Final `tool_calls_dict` after consuming a whole response stream. -/
def responseToolDict (chs : List Chunk) : List (Nat × ToolCallItem) :=
  (chs.foldl processChunk ⟨[], [], []⟩).toolDict

/-- Ascending order on dict keys, for `sorted(tool_calls_dict.keys())`. -/
def entryKeyLE (a b : Nat × ToolCallItem) : Prop :=
  a.1 ≤ b.1

instance : DecidableRel entryKeyLE :=
  fun a b => inferInstanceAs (Decidable (a.1 ≤ b.1))

/-- Build `tool_calls_list` from the dict in ascending index order
(lines 117-127). -/
def toolCallsList (d : List (Nat × ToolCallItem)) : List ToolCallItem :=
  (List.insertionSort entryKeyLE d).map Prod.snd

/-- Result of the per-round tool loop: yielded events, conversation after
the appends, updated stats. -/
structure ToolLoopResult where
  events : List Event
  msgs : List Msg
  stats : Stats
deriving Repr

/-- Tool-execution loop of _chat_stream (lines 142-198): for each call,
bump tool_calls, yield the tool_call event, run the tool; on success or on
a raised exception alike, bump tool_results, yield a tool_result event
(success=false carries `str(e)`), and append a `role: tool` message; then
move to the next call.  `i` is the 1-based `enumerate` index and `total`
the round's `len(tool_calls_list)`. -/
def execTools (toolExec : String → String → Except String String) (total : Nat) :
    List ToolCallItem → Nat → List Msg → Stats → ToolLoopResult
  | [], _, msgs, stats => ⟨[], msgs, stats⟩
  | tc :: rest, i, msgs, stats =>
    match toolExec tc.fnName tc.fnArgs with
    | Except.ok r =>
      let res := execTools toolExec total rest (i + 1)
        (msgs ++ [Msg.tool tc.callId (ToolMsgContent.result r)])
        ⟨stats.toolCalls + 1, stats.toolResults + 1⟩
      ⟨Event.toolCallEv tc.callId tc.fnName tc.fnArgs i total ::
         Event.toolResultEv tc.callId tc.fnName true r :: res.events,
       res.msgs, res.stats⟩
    | Except.error e =>
      let res := execTools toolExec total rest (i + 1)
        (msgs ++ [Msg.tool tc.callId (ToolMsgContent.errorWrap e)])
        ⟨stats.toolCalls + 1, stats.toolResults + 1⟩
      ⟨Event.toolCallEv tc.callId tc.fnName tc.fnArgs i total ::
         Event.toolResultEv tc.callId tc.fnName false e :: res.events,
       res.msgs, res.stats⟩

/-- System prompt of both chat variants. -/
def sysPrompt : String :=
  "你是专业的A股分析助手。\n当用户询问具体股票的实时价格/涨跌幅/成交量等最新行情时，必须优先调用相关工具获取最新数据后再分析，你最多只能调用1个工具禁止凭空猜测实时行情。"

/-- Initial conversation: one system message, one user message. -/
def initMessages (prompt : String) : List Msg :=
  [Msg.system sysPrompt, Msg.user prompt]

/-- Reasoning-mode flag carried by the start event. -/
def reasoningFlag (thinking : Bool) : String :=
  if thinking then "enabled" else "disabled"

/-- Result of a streaming run: the yielded events and the number of
`client.chat.completions.create` invocations. -/
structure RunResult where
  events : List Event
  modelCalls : Nat
deriving Repr

/-- Accumulator state after consuming one whole model response. -/
def roundAcc (model : List Msg → List Chunk) (msgs : List Msg) : StreamAcc :=
  (model msgs).foldl processChunk ⟨[], [], []⟩

/-- Assistant message built after a round with tool calls (lines 116-137):
`content` is the joined content chunks or `None` when empty; thinking mode
adds the joined reasoning trace (possibly empty). -/
def roundAssistantMsg (thinking : Bool) (acc : StreamAcc) : Msg :=
  Msg.assistant
    (if String.join acc.contentChunks == "" then none
      else some (String.join acc.contentChunks))
    (toolCallsList acc.toolDict)
    (if thinking then some (String.join acc.reasoningChunks) else none)

/-- One round's tool phase: append the assistant message, then run the
tool loop over the round's calls in index order. -/
def roundTools (toolExec : String → String → Except String String)
    (thinking : Bool) (acc : StreamAcc) (msgs : List Msg) (stats : Stats) :
    ToolLoopResult :=
  execTools toolExec (toolCallsList acc.toolDict).length
    (toolCallsList acc.toolDict) 1 (msgs ++ [roundAssistantMsg thinking acc])
    stats

/-- Round loop of _chat_stream (lines 33-215): `remaining` iterations of
`for call_round in range(mcp_max_call)` are left and `callRound` is the
loop variable.  Each iteration invokes the model once, emits the start
event in round 0, streams the chunk events, and either ends with
finish_reason stop (no tool calls) or executes the round's tools and
recurses; an exhausted budget emits the error sentinel followed by the
terminal end event with finish_reason length. -/
def chatStreamRounds (model : List Msg → List Chunk)
    (toolExec : String → String → Except String String) (thinking : Bool) :
    Nat → Nat → List Msg → Stats → RunResult
  | 0, _, _, stats => ⟨[Event.errorEv "length", Event.endEv "length" stats], 0⟩
  | remaining + 1, callRound, msgs, stats =>
    let startEvs := if callRound == 0 then
      [Event.start "deepseek-chat" (reasoningFlag thinking)] else []
    let streamEvs := (model msgs).flatMap chunkEvents
    if (roundAcc model msgs).toolDict.isEmpty then
      ⟨startEvs ++ streamEvs ++ [Event.endEv "stop" stats], 1⟩
    else
      let tr := roundTools toolExec thinking (roundAcc model msgs) msgs stats
      let rec2 := chatStreamRounds model toolExec thinking remaining
        (callRound + 1) tr.msgs tr.stats
      ⟨startEvs ++ streamEvs ++ tr.events ++ rec2.events, 1 + rec2.modelCalls⟩

/-- deepseek._chat_stream as a whole-run function. -/
def chatStream (model : List Msg → List Chunk)
    (toolExec : String → String → Except String String) (prompt : String)
    (mcpMaxCall : Nat) (thinking : Bool) : RunResult :=
  chatStreamRounds model toolExec thinking mcpMaxCall 0 (initMessages prompt) ⟨0, 0⟩

/-- Non-streaming model response: `resp.choices[0].message` with its
content and tool calls. -/
structure NSMessage where
  content : String
  toolCalls : List ToolCallItem
deriving DecidableEq, Repr

/-- Tool loop of _chat_non_stream (lines 250-263).  `mcp.tool_call` is NOT
wrapped in try/except there: a raised tool error propagates immediately
(`Except.error`), aborting the loop and the whole run. -/
def execToolsNS (toolExec : String → String → Except String String) :
    List ToolCallItem → List Msg → Except String (List Msg)
  | [], msgs => Except.ok msgs
  | tc :: rest, msgs =>
    match toolExec tc.fnName tc.fnArgs with
    | Except.ok r =>
      execToolsNS toolExec rest (msgs ++ [Msg.tool tc.callId (ToolMsgContent.result r)])
    | Except.error e => Except.error e

/-- Round loop of deepseek._chat_non_stream (lines 231-265). -/
def chatNonStreamRounds (model : List Msg → NSMessage)
    (toolExec : String → String → Except String String) :
    Nat → List Msg → Except String String
  | 0, _ => Except.ok "（工具调用次数过多，已停止）"
  | remaining + 1, msgs =>
    let msg := model msgs
    if msg.toolCalls.isEmpty then Except.ok msg.content
    else
      match execToolsNS toolExec msg.toolCalls
        (msgs ++ [Msg.assistant (some msg.content) msg.toolCalls none]) with
      | Except.ok msgs2 => chatNonStreamRounds model toolExec remaining msgs2
      | Except.error e => Except.error e

/-- deepseek._chat_non_stream as a whole-run function. -/
def chatNonStream (model : List Msg → NSMessage)
    (toolExec : String → String → Except String String) (prompt : String)
    (mcpMaxCall : Nat) : Except String String :=
  chatNonStreamRounds model toolExec mcpMaxCall (initMessages prompt)

/-- Test that an optional event is a terminal end event with the given
finish reason. -/
def isEndWithReason (fr : String) : Option Event → Bool
  | some (Event.endEv r _) => r == fr
  | _ => false

/-- Content fragments of a response stream: the truthy `delta.content`
pieces, in arrival order. -/
def textFragments (chs : List Chunk) : List String :=
  (chs.map Chunk.content).filter (fun c => !(c == ""))

/-! ## Theorems -/

theorem callWithRetryAux_ok (fn : Nat → Except ε α) (verbose : Bool)
    (attempt remaining : Nat) (lastErr : Option ε) (v : α)
    (h : fn attempt = Except.ok v) :
    callWithRetryAux fn verbose attempt (remaining + 1) lastErr =
      ⟨Except.ok v, 1, []⟩ := by
  simp [callWithRetryAux, h]

theorem callWithRetryAux_succeeds_after (fn : Nat → Except ε α) (verbose : Bool)
    (v : α) :
    ∀ (k attempt remaining : Nat) (lastErr : Option ε),
      k < remaining →
      (∀ i, i < k → ∃ e, fn (attempt + i) = Except.error e) →
      fn (attempt + k) = Except.ok v →
      (callWithRetryAux fn verbose attempt remaining lastErr).result = Except.ok v ∧
      (callWithRetryAux fn verbose attempt remaining lastErr).attempts = k + 1 := by
  intro k
  induction k with
  | zero =>
    intro attempt remaining lastErr hlt _ hok
    obtain ⟨r, rfl⟩ := Nat.exists_eq_succ_of_ne_zero (Nat.pos_iff_ne_zero.mp hlt)
    simp only [Nat.add_zero] at hok
    simp [callWithRetryAux, hok]
  | succ k ih =>
    intro attempt remaining lastErr hlt hfail hok
    obtain ⟨r, rfl⟩ := Nat.exists_eq_succ_of_ne_zero
      (Nat.pos_iff_ne_zero.mp (Nat.lt_of_le_of_lt (Nat.zero_le _) hlt))
    obtain ⟨e, he⟩ := hfail 0 (Nat.succ_pos k)
    simp only [Nat.add_zero] at he
    have hrec := ih (attempt + 1) r (some e)
      (Nat.lt_of_succ_lt_succ hlt)
      (fun i hi => by
        obtain ⟨e2, he2⟩ := hfail (i + 1) (Nat.succ_lt_succ hi)
        exact ⟨e2, by rw [show attempt + 1 + i = attempt + (i + 1) by omega]; exact he2⟩)
      (by rw [show attempt + 1 + k = attempt + (k + 1) by omega]; exact hok)
    simp only [callWithRetryAux, he]
    exact ⟨hrec.1, by simp [hrec.2]⟩

/-- C3: if the operation fails on its first `k` invocations (`k < max_retries`)
and succeeds on invocation `k + 1`, `_call_with_retry` returns that success
value and invokes the operation exactly `k + 1` times. -/
theorem callWithRetry_succeeds_after_k_failures (fn : Nat → Except ε α)
    (maxRetries : Nat) (verbose : Bool) (k : Nat) (v : α)
    (hk : k < maxRetries)
    (hfail : ∀ i, i < k → ∃ e, fn i = Except.error e)
    (hok : fn k = Except.ok v) :
    (callWithRetry fn maxRetries verbose).result = Except.ok v ∧
    (callWithRetry fn maxRetries verbose).attempts = k + 1 := by
  have h := callWithRetryAux_succeeds_after fn verbose v k 0 maxRetries none hk
    (fun i hi => by simpa using hfail i hi) (by simpa using hok)
  exact h

/-- Witness for C3: an operation that fails twice then returns 42, under
`max_retries = 5`, yields 42 after exactly 3 attempts. -/
theorem callWithRetry_succeeds_after_k_failures_witness :
    (callWithRetry
        (fun i => if i < 2 then Except.error "boom" else Except.ok 42) 5 true).result
      = Except.ok 42 ∧
    (callWithRetry
        (fun i => if i < 2 then Except.error "boom" else Except.ok 42) 5 true).attempts
      = 3 :=
  callWithRetry_succeeds_after_k_failures _ 5 true 2 42 (by decide)
    (fun i hi => ⟨"boom", by interval_cases i <;> rfl⟩) (by rfl)

theorem callWithRetryAux_all_fail (fn : Nat → Except ε α) (err : Nat → ε)
    (hfn : ∀ i, fn i = Except.error (err i)) :
    ∀ (remaining attempt : Nat) (lastErr : Option ε),
      (callWithRetryAux fn true attempt remaining lastErr).result =
        Except.error (if remaining = 0 then lastErr
          else some (err (attempt + remaining - 1))) ∧
      (callWithRetryAux fn true attempt remaining lastErr).attempts = remaining ∧
      (callWithRetryAux fn true attempt remaining lastErr).reports =
        (List.range remaining).map (fun i => ⟨attempt + i + 1, err (attempt + i)⟩) := by
  intro remaining
  induction remaining with
  | zero => intro attempt lastErr; simp [callWithRetryAux]
  | succ r ih =>
    intro attempt lastErr
    have hrec := ih (attempt + 1) (some (err attempt))
    refine ⟨?_, ?_, ?_⟩
    · simp only [callWithRetryAux, hfn attempt]
      rw [hrec.1]
      rcases Nat.eq_zero_or_pos r with hr | hr
      · subst hr; simp
      · have hr1 : ¬ r + 1 = 0 := by omega
        have hr2 : ¬ r = 0 := by omega
        have harg : attempt + 1 + r - 1 = attempt + (r + 1) - 1 := by omega
        simp only [hr1, hr2, if_false, harg]
    · simp only [callWithRetryAux, hfn attempt]
      simpa using hrec.2.1
    · simp only [callWithRetryAux, hfn attempt, if_true]
      rw [hrec.2.2]
      rw [List.range_succ_eq_map, List.map_cons, List.map_map]
      simp only [Nat.add_zero, List.singleton_append]
      congr 1
      apply List.map_congr_left
      intro i _
      simp only [Function.comp_apply]
      rw [show attempt + 1 + i = attempt + (i + 1) from by omega]

/-- C4: if the operation raises on every invocation, `_call_with_retry`
invokes it exactly `max_retries` times, raises a `RuntimeError` wrapping the
last underlying error, and (with verbose reporting on, the default) reports
each failed attempt exactly once with its 1-based attempt index and its
error cause. -/
theorem callWithRetry_exhausted (fn : Nat → Except ε α) (err : Nat → ε)
    (maxRetries : Nat) (hpos : 1 ≤ maxRetries)
    (hfn : ∀ i, fn i = Except.error (err i)) :
    (callWithRetry fn maxRetries true).result =
      Except.error (some (err (maxRetries - 1))) ∧
    (callWithRetry fn maxRetries true).attempts = maxRetries ∧
    (callWithRetry fn maxRetries true).reports =
      (List.range maxRetries).map (fun i => ⟨i + 1, err i⟩) := by
  have h := callWithRetryAux_all_fail fn err hfn maxRetries 0 none
  have hne : ¬ maxRetries = 0 := by omega
  refine ⟨?_, ?_, ?_⟩
  · rw [callWithRetry, h.1]; simp [hne]
  · exact h.2.1
  · rw [callWithRetry, h.2.2]; simp

/-- Witness for C4: an operation that always fails, under the default
`max_retries = 5`, is attempted exactly 5 times, the final error wraps the
5th failure, and the 5 reports carry attempt indices 1..5. -/
theorem callWithRetry_exhausted_witness :
    (callWithRetry (fun i => (Except.error i : Except Nat Nat)) 5 true).result =
      Except.error (some 4) ∧
    (callWithRetry (fun i => (Except.error i : Except Nat Nat)) 5 true).attempts = 5 ∧
    (callWithRetry (fun i => (Except.error i : Except Nat Nat)) 5 true).reports =
      (List.range 5).map (fun i => ⟨i + 1, i⟩) :=
  callWithRetry_exhausted _ (fun i => i) 5 (by decide) (fun i => rfl)

/-- C5: a get within TTL of a cached entry returns it with no upstream
fetch; a get with no entry or an elapsed gap beyond TTL performs exactly one
fetch and stores the result stamped with the current time; a get right
after clear_cache always fetches; and whenever no fetch happened the
returned entry's age is at most TTL. -/
theorem getSpotDf_cache_contract (st : CacheState δ) (now ttl : Int) (f : δ) :
    (∀ df, st.snapshotCache = some df → now - st.snapshotCacheTs ≤ ttl →
      getSpotDf st now ttl f = (df, st, 0)) ∧
    (st.snapshotCache = none ∨ ttl < now - st.snapshotCacheTs →
      getSpotDf st now ttl f = (f, ⟨some f, now⟩, 1)) ∧
    getSpotDf (clearCache) now ttl f = (f, ⟨some f, now⟩, 1) ∧
    ((getSpotDf st now ttl f).2.2 = 0 → now - st.snapshotCacheTs ≤ ttl) := by
  obtain ⟨c, ts⟩ := st
  refine ⟨?_, ?_, ?_, ?_⟩
  · intro df hdf hle
    cases hdf
    simp [getSpotDf, hle]
  · intro hmiss
    rcases hmiss with hnone | hgap
    · cases hnone; simp [getSpotDf]
    · cases c with
      | none => simp [getSpotDf]
      | some df => simp only [getSpotDf]; rw [if_neg (by simpa using Int.not_le.mpr hgap)]
  · simp [getSpotDf, clearCache]
  · intro h0
    cases c with
    | none => simp [getSpotDf] at h0
    | some df =>
      by_contra hgt
      simp only [getSpotDf] at h0
      rw [if_neg hgt] at h0
      simp at h0

/-- Witness for C5 at concrete inputs: a hit within TTL returns the cached
frame without fetching; a call 20s after a 10s-TTL entry refetches; a call
after clear_cache refetches. -/
theorem getSpotDf_cache_contract_witness :
    getSpotDf (⟨some 7, 0⟩ : CacheState Nat) 5 10 9 = (7, ⟨some 7, 0⟩, 0) ∧
    getSpotDf (⟨some 7, 0⟩ : CacheState Nat) 20 10 9 = (9, ⟨some 9, 20⟩, 1) ∧
    getSpotDf (clearCache : CacheState Nat) 5 10 9 = (9, ⟨some 9, 5⟩, 1) :=
  ⟨(getSpotDf_cache_contract ⟨some 7, 0⟩ 5 10 9).1 7 rfl (by decide),
   (getSpotDf_cache_contract ⟨some 7, 0⟩ 20 10 9).2.1 (Or.inr (by decide)),
   (getSpotDf_cache_contract ⟨some 7, 0⟩ 5 10 9).2.2.1⟩

/-- Counterexample to C6: with an empty cache, the interleaving in which
both callers test the cache before either stores (A checks, B checks, A
fetches, B fetches) issues 2 upstream fetches for the same snapshot — the
code has no lock or coalescing, so concurrent callers during a miss do not
share a single in-flight fetch. -/
theorem runSched_two_fetches_counterexample :
    (runSched 10 7 [false, true, false, true]
        ⟨⟨none, 0⟩, 0, 0⟩ GetPhase.ready GetPhase.ready).1.fetches = 2 := by
  rfl

theorem phaseStep_fetch_bound (ttl : Int) (v : Nat) (s : ConcState) (p : GetPhase) :
    (phaseStep ttl v s p).1.fetches + pendingFetches (phaseStep ttl v s p).2 ≤
      s.fetches + pendingFetches p := by
  cases p with
  | ready =>
    simp only [phaseStep]
    cases hc : s.cache.snapshotCache with
    | none => simp [pendingFetches]
    | some df =>
      by_cases hle : s.clock - s.cache.snapshotCacheTs ≤ ttl <;>
        simp [hle, pendingFetches]
  | needFetch now => simp [phaseStep, pendingFetches]
  | finished => simp [phaseStep, pendingFetches]

/-- C6 (amended): the cache performs no coalescing, but each caller issues
at most one upstream fetch per `_get_spot_df` call, so any interleaving of
two callers starting on an empty cache issues at most two upstream fetches
(and the counterexample shows two is reached). -/
theorem runSched_at_most_one_fetch_per_caller (ttl : Int) (v : Nat) :
    ∀ (sched : List Bool) (s : ConcState) (pA pB : GetPhase),
      (runSched ttl v sched s pA pB).1.fetches ≤
        s.fetches + pendingFetches pA + pendingFetches pB := by
  intro sched
  induction sched with
  | nil => intro s pA pB; simp only [runSched]; omega
  | cons b rest ih =>
    intro s pA pB
    cases b with
    | false =>
      calc (runSched ttl v (false :: rest) s pA pB).1.fetches
          = (runSched ttl v rest (phaseStep ttl v s pA).1
              (phaseStep ttl v s pA).2 pB).1.fetches := by simp [runSched]
        _ ≤ (phaseStep ttl v s pA).1.fetches +
              pendingFetches (phaseStep ttl v s pA).2 + pendingFetches pB := ih _ _ _
        _ ≤ s.fetches + pendingFetches pA + pendingFetches pB := by
              have h := phaseStep_fetch_bound ttl v s pA
              omega
    | true =>
      calc (runSched ttl v (true :: rest) s pA pB).1.fetches
          = (runSched ttl v rest (phaseStep ttl v s pB).1 pA
              (phaseStep ttl v s pB).2).1.fetches := by simp [runSched]
        _ ≤ (phaseStep ttl v s pB).1.fetches + pendingFetches pA +
              pendingFetches (phaseStep ttl v s pB).2 := by
              have h := ih (phaseStep ttl v s pB).1 pA (phaseStep ttl v s pB).2
              omega
        _ ≤ s.fetches + pendingFetches pA + pendingFetches pB := by
              have h := phaseStep_fetch_bound ttl v s pB
              omega

/-- Counterexample to C7: the name filter is `str.contains` with the pandas
default `case=True`, so it is case-SENSITIVE, not case-insensitive as
claimed.  The query "bank" fails with NoMatch against a snapshot whose one
row is named "Bank", even though the lowercased name contains the
lowercased query. -/
theorem resolveSymbol_case_sensitive_counterexample :
    resolveSymbol ⟨[⟨"600000", "Bank", some 5⟩], true⟩ "bank" 10 =
      Except.error ResolveError.noMatch ∧
    containsChars ("bank".data.map Char.toLower) ("Bank".data.map Char.toLower)
      = true := by
  exact ⟨rfl, by decide⟩

/-- C7 (amended: the name filter is case-sensitive substring containment,
not case-insensitive): an all-whitespace query fails with EmptyQuery; a
stripped 6-digit query selects exactly the snapshot rows whose code equals
it; any other non-empty stripped query selects exactly the rows whose
display name contains it as a (case-sensitive) substring; and a filter with
zero matching rows fails with NoMatch. -/
theorem resolveSymbol_filter_contract (spot : SpotDf) (query : String)
    (topn : Nat) :
    (pyStrip query = "" →
      resolveSymbol spot query topn = Except.error ResolveError.emptyQuery) ∧
    (isCodeQuery (pyStrip query) = true →
      ∀ r, r ∈ hitRows spot (pyStrip query) ↔
        r ∈ spot.rows ∧ r.code = pyStrip query) ∧
    (isCodeQuery (pyStrip query) = false →
      ∀ r, r ∈ hitRows spot (pyStrip query) ↔
        r ∈ spot.rows ∧ pdStrContains r.name (pyStrip query) = true) ∧
    (pyStrip query ≠ "" → hitRows spot (pyStrip query) = [] →
      resolveSymbol spot query topn = Except.error ResolveError.noMatch) := by
  refine ⟨?_, ?_, ?_, ?_⟩
  · intro hq
    simp [resolveSymbol, hq]
  · intro hcode r
    simp [hitRows, hcode, List.mem_filter]
  · intro hcode r
    simp [hitRows, hcode, List.mem_filter]
  · intro hq hempty
    simp [resolveSymbol, hq, hempty]

/-- Witness for the amended C7 at concrete inputs: whitespace query raises
EmptyQuery; a 6-digit query selects by exact code; a name query selects by
substring; an unmatched query raises NoMatch. -/
theorem resolveSymbol_filter_contract_witness :
    resolveSymbol ⟨[⟨"600519", "贵州茅台", some 100⟩], true⟩ "   " 10 =
      Except.error ResolveError.emptyQuery ∧
    (⟨"600519", "贵州茅台", some 100⟩ : SpotRow) ∈
      hitRows ⟨[⟨"600519", "贵州茅台", some 100⟩], true⟩ (pyStrip " 600519 ") ∧
    (⟨"600519", "贵州茅台", some 100⟩ : SpotRow) ∈
      hitRows ⟨[⟨"600519", "贵州茅台", some 100⟩], true⟩ (pyStrip "茅台") ∧
    resolveSymbol ⟨[⟨"600519", "贵州茅台", some 100⟩], true⟩ "zzz" 10 =
      Except.error ResolveError.noMatch :=
  ⟨(resolveSymbol_filter_contract ⟨[⟨"600519", "贵州茅台", some 100⟩], true⟩
      "   " 10).1 (by decide),
   ((resolveSymbol_filter_contract ⟨[⟨"600519", "贵州茅台", some 100⟩], true⟩
      " 600519 " 10).2.1 (by decide) _).mpr ⟨by decide, by decide⟩,
   ((resolveSymbol_filter_contract ⟨[⟨"600519", "贵州茅台", some 100⟩], true⟩
      "茅台" 10).2.2.1 (by decide) _).mpr ⟨by decide, by decide⟩,
   (resolveSymbol_filter_contract ⟨[⟨"600519", "贵州茅台", some 100⟩], true⟩
      "zzz" 10).2.2.2 (by decide) (by decide)⟩

/-- C8: for a query whose filter yields more than one row (snapshot with a
traded-value column, `topn ≥ 1`), resolve_symbol returns the hit rows
sorted by descending coerced traded value (NaN lowest), truncated to at
most `topn` rows, with the first ranked row as primary; for a filter
yielding exactly one row, that row is primary and the sole candidate. -/
theorem resolveSymbol_ranking (spot : SpotDf) (query : String) (topn : Nat)
    (hq : pyStrip query ≠ "") (hamt : spot.hasAmountCol = true)
    (htopn : 1 ≤ topn) :
    (1 < (hitRows spot (pyStrip query)).length →
      resolveSymbol spot query topn = Except.ok
        ⟨(rankedHits spot query topn).headI.code,
         (rankedHits spot query topn).headI.name,
         rankedHits spot query topn⟩ ∧
      List.Sorted rankGE (rankedHits spot query topn) ∧
      (rankedHits spot query topn).length =
        min topn (hitRows spot (pyStrip query)).length ∧
      (∀ r ∈ rankedHits spot query topn, r ∈ hitRows spot (pyStrip query))) ∧
    (∀ r0, hitRows spot (pyStrip query) = [r0] →
      resolveSymbol spot query topn = Except.ok ⟨r0.code, r0.name, [r0]⟩) := by
  constructor
  · intro hlen
    have hne : hitRows spot (pyStrip query) ≠ [] := by
      intro h
      rw [h] at hlen
      simp at hlen
    have hlensort : (sortByAmountDesc (hitRows spot (pyStrip query))).length =
        (hitRows spot (pyStrip query)).length :=
      (List.perm_insertionSort rankGE _).length_eq
    have hr3len : (rankedHits spot query topn).length =
        min topn (hitRows spot (pyStrip query)).length := by
      simp [rankedHits, List.length_take, hlensort]
    have hr3ne : rankedHits spot query topn ≠ [] := by
      intro h
      rw [h] at hr3len
      simp only [List.length_nil] at hr3len
      omega
    obtain ⟨r0, rest, hr3⟩ := List.exists_cons_of_ne_nil hr3ne
    have hr3' : (sortByAmountDesc (hitRows spot (pyStrip query))).take topn =
        r0 :: rest := hr3
    refine ⟨?_, ?_, hr3len, ?_⟩
    · have hnotEmpty : ¬ ((hitRows spot (pyStrip query)).isEmpty = true) := by
        simpa [List.isEmpty_iff] using hne
      simp only [resolveSymbol]
      rw [if_neg hq, if_neg hnotEmpty, if_pos hlen, if_pos hamt, hr3']
      rw [rankedHits, hr3']
      simp [List.headI]
    · exact List.Pairwise.sublist (List.take_sublist _ _)
        (List.sorted_insertionSort rankGE _)
    · intro r hr
      exact (List.perm_insertionSort rankGE _).subset
        (List.take_subset _ _ (by simpa [rankedHits] using hr))
  · intro r0 h1
    have hnotEmpty : ¬ ((hitRows spot (pyStrip query)).isEmpty = true) := by
      simp [List.isEmpty_iff, h1]
    simp only [resolveSymbol]
    rw [if_neg hq, if_neg hnotEmpty, h1]
    simp

/-- Witness for C8: three bank rows matched by name, `topn = 2`, are ranked
90, 50, NaN and truncated to two; the 90-valued row is primary.  A
single-row exact-code hit is returned as sole candidate. -/
theorem resolveSymbol_ranking_witness :
    resolveSymbol ⟨[⟨"000001", "平安银行", some 50⟩, ⟨"600000", "浦发银行", none⟩,
        ⟨"601398", "工商银行", some 90⟩], true⟩ "银行" 2 =
      Except.ok ⟨"601398", "工商银行",
        [⟨"601398", "工商银行", some 90⟩, ⟨"000001", "平安银行", some 50⟩]⟩ ∧
    resolveSymbol ⟨[⟨"000001", "平安银行", some 50⟩, ⟨"600000", "浦发银行", none⟩,
        ⟨"601398", "工商银行", some 90⟩], true⟩ "600000" 2 =
      Except.ok ⟨"600000", "浦发银行", [⟨"600000", "浦发银行", none⟩]⟩ := by
  have h := resolveSymbol_ranking
    ⟨[⟨"000001", "平安银行", some 50⟩, ⟨"600000", "浦发银行", none⟩,
      ⟨"601398", "工商银行", some 90⟩], true⟩ "银行" 2 (by decide) rfl (by decide)
  have h2 := resolveSymbol_ranking
    ⟨[⟨"000001", "平安银行", some 50⟩, ⟨"600000", "浦发银行", none⟩,
      ⟨"601398", "工商银行", some 90⟩], true⟩ "600000" 2 (by decide) rfl (by decide)
  refine ⟨?_, ?_⟩
  · rw [(h.1 (by decide)).1]
    rfl
  · exact h2.2 ⟨"600000", "浦发银行", none⟩ (by decide)

theorem isEndWithReason_getLast_ne_nil {fr : String} {l : List Event}
    (h : isEndWithReason fr l.getLast? = true) : l ≠ [] := by
  intro hnil
  rw [hnil] at h
  simp [List.getLast?, isEndWithReason] at h

theorem chatStreamRounds_budget (model : List Msg → List Chunk)
    (toolExec : String → String → Except String String) (thinking : Bool)
    (hreq : ∀ msgs, responseToolDict (model msgs) ≠ []) :
    ∀ (remaining callRound : Nat) (msgs : List Msg) (stats : Stats),
      (chatStreamRounds model toolExec thinking remaining callRound msgs
        stats).modelCalls = remaining ∧
      isEndWithReason "length"
        (chatStreamRounds model toolExec thinking remaining callRound msgs
          stats).events.getLast? = true := by
  intro remaining
  induction remaining with
  | zero =>
    intro callRound msgs stats
    exact ⟨rfl, rfl⟩
  | succ r ih =>
    intro callRound msgs stats
    have hemp : ¬ ((roundAcc model msgs).toolDict.isEmpty = true) := by
      simpa [List.isEmpty_iff] using hreq msgs
    have ihr := ih (callRound + 1)
      (roundTools toolExec thinking (roundAcc model msgs) msgs stats).msgs
      (roundTools toolExec thinking (roundAcc model msgs) msgs stats).stats
    have hne := isEndWithReason_getLast_ne_nil ihr.2
    constructor
    · simp only [chatStreamRounds]
      rw [if_neg hemp]
      simp only
      omega
    · simp only [chatStreamRounds]
      rw [if_neg hemp]
      simp only
      rw [List.append_assoc, List.append_assoc]
      rw [List.getLast?_append_of_ne_nil _ (by simp [hne]),
        List.getLast?_append_of_ne_nil _ (by simp [hne]),
        List.getLast?_append_of_ne_nil _ hne]
      exact ihr.2

/-- C1: in a run where every model response requests at least one tool
call, _chat_stream invokes the model exactly `mcp_max_call` times — never a
`mcp_max_call + 1`-th time — and the last emitted event is the terminal end
event with finish_reason "length" (the tool-budget-exhausted sentinel). -/
theorem chatStream_round_budget (model : List Msg → List Chunk)
    (toolExec : String → String → Except String String) (prompt : String)
    (maxCall : Nat) (thinking : Bool)
    (hreq : ∀ msgs, responseToolDict (model msgs) ≠ []) :
    (chatStream model toolExec prompt maxCall thinking).modelCalls = maxCall ∧
    isEndWithReason "length"
      (chatStream model toolExec prompt maxCall thinking).events.getLast?
      = true :=
  chatStreamRounds_budget model toolExec thinking hreq maxCall 0
    (initMessages prompt) ⟨0, 0⟩

/-- Witness for C1: a model that always asks for one tool call, with
budget 2, is called exactly twice and the run ends with end(length). -/
theorem chatStream_round_budget_witness :
    (chatStream (fun _ => [⟨"", "", [⟨0, "id1", "price", "a"⟩]⟩])
        (fun _ _ => Except.ok "r") "q" 2 true).modelCalls = 2 ∧
    isEndWithReason "length"
      (chatStream (fun _ => [⟨"", "", [⟨0, "id1", "price", "a"⟩]⟩])
        (fun _ _ => Except.ok "r") "q" 2 true).events.getLast? = true :=
  chatStream_round_budget _ _ "q" 2 true (fun msgs => by decide)

theorem execTools_stats (toolExec : String → String → Except String String)
    (total : Nat) :
    ∀ (tcs : List ToolCallItem) (i : Nat) (msgs : List Msg) (stats : Stats),
      (execTools toolExec total tcs i msgs stats).stats =
        ⟨stats.toolCalls + tcs.length, stats.toolResults + tcs.length⟩ := by
  intro tcs
  induction tcs with
  | nil => intro i msgs stats; simp [execTools]
  | cons tc rest ih =>
    intro i msgs stats
    cases hx : toolExec tc.fnName tc.fnArgs with
    | ok r =>
      simp only [execTools, hx]
      rw [ih]
      simp only [List.length_cons]
      congr 1 <;> omega
    | error e =>
      simp only [execTools, hx]
      rw [ih]
      simp only [List.length_cons]
      congr 1 <;> omega

theorem execTools_msgs_length (toolExec : String → String → Except String String)
    (total : Nat) :
    ∀ (tcs : List ToolCallItem) (i : Nat) (msgs : List Msg) (stats : Stats),
      (execTools toolExec total tcs i msgs stats).msgs.length =
        msgs.length + tcs.length := by
  intro tcs
  induction tcs with
  | nil => intro i msgs stats; simp [execTools]
  | cons tc rest ih =>
    intro i msgs stats
    cases hx : toolExec tc.fnName tc.fnArgs with
    | ok r =>
      simp only [execTools, hx]
      rw [ih]
      simp only [List.length_append, List.length_cons, List.length_nil]
      omega
    | error e =>
      simp only [execTools, hx]
      rw [ih]
      simp only [List.length_append, List.length_cons, List.length_nil]
      omega

theorem execTools_msgs_mono (toolExec : String → String → Except String String)
    (total : Nat) :
    ∀ (tcs : List ToolCallItem) (i : Nat) (msgs : List Msg) (stats : Stats)
      (m : Msg), m ∈ msgs → m ∈ (execTools toolExec total tcs i msgs stats).msgs := by
  intro tcs
  induction tcs with
  | nil => intro i msgs stats m hm; simpa [execTools] using hm
  | cons tc rest ih =>
    intro i msgs stats m hm
    cases hx : toolExec tc.fnName tc.fnArgs with
    | ok r =>
      simp only [execTools, hx]
      exact ih _ _ _ m (List.mem_append_left _ hm)
    | error e =>
      simp only [execTools, hx]
      exact ih _ _ _ m (List.mem_append_left _ hm)

theorem execTools_failure_recorded
    (toolExec : String → String → Except String String) (total : Nat) :
    ∀ (tcs : List ToolCallItem) (i : Nat) (msgs : List Msg) (stats : Stats),
      ∀ tc ∈ tcs, ∀ e, toolExec tc.fnName tc.fnArgs = Except.error e →
        Event.toolResultEv tc.callId tc.fnName false e ∈
          (execTools toolExec total tcs i msgs stats).events ∧
        Msg.tool tc.callId (ToolMsgContent.errorWrap e) ∈
          (execTools toolExec total tcs i msgs stats).msgs := by
  intro tcs
  induction tcs with
  | nil => intro i msgs stats tc htc; exact absurd htc (List.not_mem_nil tc)
  | cons tc0 rest ih =>
    intro i msgs stats tc htc e he
    rcases List.mem_cons.mp htc with heq | hmem
    · subst heq
      constructor
      · simp [execTools, he]
      · simp only [execTools, he]
        exact execTools_msgs_mono toolExec total rest (i + 1) _ _ _ (by simp)
    · cases hx : toolExec tc0.fnName tc0.fnArgs with
      | ok r =>
        have h := ih (i + 1)
          (msgs ++ [Msg.tool tc0.callId (ToolMsgContent.result r)])
          ⟨stats.toolCalls + 1, stats.toolResults + 1⟩ tc hmem e he
        constructor
        · simp only [execTools, hx]
          exact List.mem_cons_of_mem _ (List.mem_cons_of_mem _ h.1)
        · simp only [execTools, hx]
          exact h.2
      | error e2 =>
        have h := ih (i + 1)
          (msgs ++ [Msg.tool tc0.callId (ToolMsgContent.errorWrap e2)])
          ⟨stats.toolCalls + 1, stats.toolResults + 1⟩ tc hmem e he
        constructor
        · simp only [execTools, hx]
          exact List.mem_cons_of_mem _ (List.mem_cons_of_mem _ h.1)
        · simp only [execTools, hx]
          exact h.2

/-- Counterexample to C2: the claim also covers the non-streaming path,
but `_chat_non_stream` does NOT wrap `mcp.tool_call` in try/except
(lines 250-263), so a tool-execution failure is raised past the
orchestrator instead of being recorded as a failed ToolResult. -/
theorem chatNonStream_raises_tool_error_counterexample :
    chatNonStream (fun _ => ⟨"", [⟨"call1", "tool", "args"⟩]⟩)
      (fun _ _ => Except.error "boom") "hi" 20 = Except.error "boom" := rfl

/-- C2 (amended to the streaming path only): in _chat_stream's tool loop a
failing tool call never aborts the round: the failure is recorded as a
tool_result event with success=false, appended to the conversation as a
tool message wrapping the error, earlier messages are preserved, and the
loop still processes every call of the round (message count and both stats
counters advance by the full number of calls).  In the non-streaming path
the error propagates instead (see the counterexample). -/
theorem execTools_tolerates_failures
    (toolExec : String → String → Except String String) (total : Nat)
    (tcs : List ToolCallItem) (i : Nat) (msgs : List Msg) (stats : Stats) :
    (execTools toolExec total tcs i msgs stats).msgs.length =
      msgs.length + tcs.length ∧
    (execTools toolExec total tcs i msgs stats).stats.toolCalls =
      stats.toolCalls + tcs.length ∧
    (execTools toolExec total tcs i msgs stats).stats.toolResults =
      stats.toolResults + tcs.length ∧
    (∀ m ∈ msgs, m ∈ (execTools toolExec total tcs i msgs stats).msgs) ∧
    (∀ tc ∈ tcs, ∀ e, toolExec tc.fnName tc.fnArgs = Except.error e →
      Event.toolResultEv tc.callId tc.fnName false e ∈
        (execTools toolExec total tcs i msgs stats).events ∧
      Msg.tool tc.callId (ToolMsgContent.errorWrap e) ∈
        (execTools toolExec total tcs i msgs stats).msgs) := by
  refine ⟨execTools_msgs_length toolExec total tcs i msgs stats, ?_, ?_,
    fun m hm => execTools_msgs_mono toolExec total tcs i msgs stats m hm,
    fun tc htc e he =>
      execTools_failure_recorded toolExec total tcs i msgs stats tc htc e he⟩
  · rw [execTools_stats]
  · rw [execTools_stats]

/-- Witness for C2 (amended): a round with one failing and one succeeding
call records the failure as a success=false tool_result event and a
wrapped tool message, and still executes both calls. -/
theorem execTools_tolerates_failures_witness :
    Event.toolResultEv "c1" "f" false "boom" ∈
      (execTools (fun nm _ => if nm == "f" then Except.error "boom"
          else Except.ok "ok")
        2 [⟨"c1", "f", "a"⟩, ⟨"c2", "g", "b"⟩] 1 [] ⟨0, 0⟩).events ∧
    Msg.tool "c1" (ToolMsgContent.errorWrap "boom") ∈
      (execTools (fun nm _ => if nm == "f" then Except.error "boom"
          else Except.ok "ok")
        2 [⟨"c1", "f", "a"⟩, ⟨"c2", "g", "b"⟩] 1 [] ⟨0, 0⟩).msgs ∧
    (execTools (fun nm _ => if nm == "f" then Except.error "boom"
          else Except.ok "ok")
        2 [⟨"c1", "f", "a"⟩, ⟨"c2", "g", "b"⟩] 1 [] ⟨0, 0⟩).stats.toolResults = 2 :=
  have h := execTools_tolerates_failures
    (fun nm _ => if nm == "f" then Except.error "boom" else Except.ok "ok")
    2 [⟨"c1", "f", "a"⟩, ⟨"c2", "g", "b"⟩] 1 [] ⟨0, 0⟩
  have hf := h.2.2.2.2 ⟨"c1", "f", "a"⟩ (by decide) "boom" (by rfl)
  ⟨hf.1, hf.2, by rw [h.2.2.1]; rfl⟩

theorem chunkEvents_text_only :
    ∀ (chs : List Chunk),
      (∀ ch ∈ chs, ch.reasoningContent = "" ∧ ch.toolCalls = []) →
      chs.flatMap chunkEvents = (textFragments chs).map Event.message := by
  intro chs
  induction chs with
  | nil => intro _; rfl
  | cons c t ih =>
    intro h
    have hc := h c (List.mem_cons_self c t)
    have ht := ih (fun ch hch => h ch (List.mem_cons_of_mem c hch))
    by_cases hcc : c.content = "" <;>
      simp [chunkEvents, textFragments, hc.1, hcc, ht, List.filter_cons]

theorem foldl_processChunk_no_tools :
    ∀ (chs : List Chunk) (acc : StreamAcc), (∀ ch ∈ chs, ch.toolCalls = []) →
      (chs.foldl processChunk acc).toolDict = acc.toolDict := by
  intro chs
  induction chs with
  | nil => intro acc _; rfl
  | cons c t ih =>
    intro acc h
    have hc := h c (List.mem_cons_self c t)
    rw [List.foldl_cons, ih _ (fun ch hch => h ch (List.mem_cons_of_mem c hch))]
    simp [processChunk, hc]

/-- Counterexample to C9: a first response that carries a reasoning
fragment alongside its text fragment (and no tool calls) emits a reasoning
event, so the emitted sequence is NOT exactly one start event, message
events, and one end event: the claim as stated omits the reasoning
events interleaved by thinking mode. -/
theorem chatStream_reasoning_event_counterexample :
    (chatStream (fun _ => [⟨"think", "", []⟩, ⟨"", "hello", []⟩])
        (fun _ _ => Except.ok "") "hi" 20 true).events =
      [Event.start "deepseek-chat" "enabled", Event.reasoning "think",
       Event.message "hello", Event.endEv "stop" ⟨0, 0⟩] ∧
    Event.reasoning "think" ∈
      (chatStream (fun _ => [⟨"think", "", []⟩, ⟨"", "hello", []⟩])
        (fun _ _ => Except.ok "") "hi" 20 true).events :=
  ⟨rfl, by decide⟩

/-- C9 (amended: the first response must also carry no reasoning
fragments, since thinking mode interleaves reasoning events): when the
model's first response consists of content fragments only — no tool calls,
no reasoning — the streaming run emits exactly one start event (with the
model identity and the reasoning-mode flag), one message event per truthy
text fragment in order, and one end event with finish_reason stop and
zeroed tool counters; in particular zero tool_call and tool_result
events. -/
theorem chatStream_text_only_first_response (model : List Msg → List Chunk)
    (toolExec : String → String → Except String String) (prompt : String)
    (maxCall : Nat) (thinking : Bool) (hmax : 1 ≤ maxCall)
    (hresp : ∀ ch ∈ model (initMessages prompt),
      ch.reasoningContent = "" ∧ ch.toolCalls = []) :
    (chatStream model toolExec prompt maxCall thinking).events =
      Event.start "deepseek-chat" (reasoningFlag thinking) ::
        ((textFragments (model (initMessages prompt))).map Event.message ++
          [Event.endEv "stop" ⟨0, 0⟩]) := by
  obtain ⟨r, rfl⟩ := Nat.exists_eq_succ_of_ne_zero (by omega : maxCall ≠ 0)
  have hdict : (roundAcc model (initMessages prompt)).toolDict = [] :=
    foldl_processChunk_no_tools _ _ (fun ch hch => (hresp ch hch).2)
  have hemp : (roundAcc model (initMessages prompt)).toolDict.isEmpty = true := by
    simp [hdict]
  simp only [chatStream, chatStreamRounds]
  rw [if_pos hemp, chunkEvents_text_only _ hresp]
  simp

/-- Witness for the amended C9: three content chunks "hel", "", "lo" with
no reasoning and no tool calls emit exactly start, message "hel",
message "lo", end(stop). -/
theorem chatStream_text_only_first_response_witness :
    (chatStream (fun _ => [⟨"", "hel", []⟩, ⟨"", "", []⟩, ⟨"", "lo", []⟩])
        (fun _ _ => Except.ok "") "q" 3 false).events =
      [Event.start "deepseek-chat" "disabled", Event.message "hel",
       Event.message "lo", Event.endEv "stop" ⟨0, 0⟩] := by
  rw [chatStream_text_only_first_response
    (fun _ => [⟨"", "hel", []⟩, ⟨"", "", []⟩, ⟨"", "lo", []⟩])
    (fun _ _ => Except.ok "") "q" 3 false (by decide) (by decide)]
  rfl

theorem endEv_not_mem_chunkEvents (fr : String) (s : Stats) (ch : Chunk) :
    Event.endEv fr s ∉ chunkEvents ch := by
  unfold chunkEvents
  by_cases h1 : (ch.reasoningContent == "") = true <;>
    by_cases h2 : (ch.content == "") = true <;>
      simp [h1, h2]

theorem endEv_not_mem_flatMap (fr : String) (s : Stats) (chs : List Chunk) :
    Event.endEv fr s ∉ chs.flatMap chunkEvents := by
  intro h
  obtain ⟨ch, _, hmem⟩ := List.mem_flatMap.mp h
  exact endEv_not_mem_chunkEvents fr s ch hmem

theorem endEv_not_mem_execTools
    (toolExec : String → String → Except String String) (total : Nat)
    (fr : String) (s : Stats) :
    ∀ (tcs : List ToolCallItem) (i : Nat) (msgs : List Msg) (stats : Stats),
      Event.endEv fr s ∉ (execTools toolExec total tcs i msgs stats).events := by
  intro tcs
  induction tcs with
  | nil => intro i msgs stats; simp [execTools]
  | cons tc rest ih =>
    intro i msgs stats hmem
    cases hx : toolExec tc.fnName tc.fnArgs with
    | ok r =>
      rw [execTools, hx] at hmem
      rcases List.mem_cons.mp hmem with h | hmem2
      · exact Event.noConfusion h
      · rcases List.mem_cons.mp hmem2 with h | h3
        · exact Event.noConfusion h
        · exact ih _ _ _ h3
    | error e =>
      rw [execTools, hx] at hmem
      rcases List.mem_cons.mp hmem with h | hmem2
      · exact Event.noConfusion h
      · rcases List.mem_cons.mp hmem2 with h | h3
        · exact Event.noConfusion h
        · exact ih _ _ _ h3

theorem chatStreamRounds_end_balanced (model : List Msg → List Chunk)
    (toolExec : String → String → Except String String) (thinking : Bool) :
    ∀ (remaining callRound : Nat) (msgs : List Msg) (stats : Stats),
      stats.toolCalls = stats.toolResults →
      ∀ fr s, Event.endEv fr s ∈
        (chatStreamRounds model toolExec thinking remaining callRound msgs
          stats).events →
      s.toolCalls = s.toolResults := by
  intro remaining
  induction remaining with
  | zero =>
    intro callRound msgs stats hbal fr s hmem
    simp only [chatStreamRounds] at hmem
    rcases List.mem_cons.mp hmem with h | hmem2
    · exact Event.noConfusion h
    · rcases List.mem_cons.mp hmem2 with h | h3
      · injection h with h1 h2
        subst h2
        exact hbal
      · exact absurd h3 (List.not_mem_nil _)
  | succ r ih =>
    intro callRound msgs stats hbal fr s hmem
    by_cases hemp : ((roundAcc model msgs).toolDict.isEmpty = true)
    · simp only [chatStreamRounds] at hmem
      rw [if_pos hemp] at hmem
      rcases List.mem_append.mp hmem with h12 | hEnd
      · rcases List.mem_append.mp h12 with h1 | h2
        · revert h1
          by_cases hcr : (callRound == 0) = true <;> simp [hcr]
        · exact absurd h2 (endEv_not_mem_flatMap fr s _)
      · rcases List.mem_cons.mp hEnd with h | h4
        · injection h with h1 h2
          subst h2
          exact hbal
        · exact absurd h4 (List.not_mem_nil _)
    · simp only [chatStreamRounds] at hmem
      rw [if_neg hemp] at hmem
      rcases List.mem_append.mp hmem with h123 | h4
      · rcases List.mem_append.mp h123 with h12 | h3
        · rcases List.mem_append.mp h12 with h1 | h2
          · revert h1
            by_cases hcr : (callRound == 0) = true <;> simp [hcr]
          · exact absurd h2 (endEv_not_mem_flatMap fr s _)
        · exact absurd h3
            (endEv_not_mem_execTools toolExec _ fr s _ _ _ _ :
              Event.endEv fr s ∉ _)
      · have hbal2 : (roundTools toolExec thinking (roundAcc model msgs)
            msgs stats).stats.toolCalls =
            (roundTools toolExec thinking (roundAcc model msgs)
              msgs stats).stats.toolResults := by
          unfold roundTools
          rw [execTools_stats]
          simpa using hbal
        exact ih (callRound + 1) _ _ hbal2 fr s h4

/-- C10: the streaming orchestrator's failure branch bumps tool_results
exactly like the success branch, so the tool loop preserves equality of
the tool_calls and tool_results counters (hence they are equal after each
completed tool execution, the loop body being this recursion), and every
end event emitted by a run carries stats with equal counters. -/
theorem chatStream_stats_balanced (model : List Msg → List Chunk)
    (toolExec : String → String → Except String String) (prompt : String)
    (maxCall : Nat) (thinking : Bool) :
    (∀ (total : Nat) (tcs : List ToolCallItem) (i : Nat) (msgs : List Msg)
        (stats : Stats), stats.toolCalls = stats.toolResults →
      (execTools toolExec total tcs i msgs stats).stats.toolCalls =
        (execTools toolExec total tcs i msgs stats).stats.toolResults) ∧
    (∀ fr s, Event.endEv fr s ∈
        (chatStream model toolExec prompt maxCall thinking).events →
      s.toolCalls = s.toolResults) := by
  constructor
  · intro total tcs i msgs stats hbal
    rw [execTools_stats]
    simpa using hbal
  · intro fr s hmem
    exact chatStreamRounds_end_balanced model toolExec thinking maxCall 0
      (initMessages prompt) ⟨0, 0⟩ rfl fr s hmem

/-- Witness for C10: a run with one tool round then a text round emits an
end(stop) event whose stats count 1 tool call and 1 tool result, and the
tool loop started from balanced counters stays balanced. -/
theorem chatStream_stats_balanced_witness :
    Event.endEv "stop" (⟨1, 1⟩ : Stats) ∈
      (chatStream
        (fun msgs => if msgs.length == 2
          then [⟨"", "", [⟨0, "i1", "t", "a"⟩]⟩] else [⟨"", "done", []⟩])
        (fun _ _ => Except.ok "r") "q" 5 true).events ∧
    (⟨1, 1⟩ : Stats).toolCalls = (⟨1, 1⟩ : Stats).toolResults ∧
    (execTools (fun _ _ => Except.ok "r") 2
        [⟨"a", "f", "x"⟩, ⟨"b", "g", "y"⟩] 1 [] ⟨3, 3⟩).stats.toolCalls =
      (execTools (fun _ _ => Except.ok "r") 2
        [⟨"a", "f", "x"⟩, ⟨"b", "g", "y"⟩] 1 [] ⟨3, 3⟩).stats.toolResults :=
  ⟨by decide,
   (chatStream_stats_balanced
      (fun msgs => if msgs.length == 2
        then [⟨"", "", [⟨0, "i1", "t", "a"⟩]⟩] else [⟨"", "done", []⟩])
      (fun _ _ => Except.ok "r") "q" 5 true).2 "stop" ⟨1, 1⟩ (by decide),
   (chatStream_stats_balanced
      (fun msgs => if msgs.length == 2
        then [⟨"", "", [⟨0, "i1", "t", "a"⟩]⟩] else [⟨"", "done", []⟩])
      (fun _ _ => Except.ok "r") "q" 5 true).1 2
      [⟨"a", "f", "x"⟩, ⟨"b", "g", "y"⟩] 1 [] ⟨3, 3⟩ rfl⟩

